import Mathlib

/-!
Shallow embedding of the Czat chat client's service layer
(src/services/chatService.ts) and of the ChatScreen message filter
(src/unnamed/part_003), with theorems settling the frozen claims about it.

Modelling conventions:
* Firestore documents become Lean structures; a Firestore map field keyed by
  user id becomes an association list with default-on-absence lookup.
* The store's state is a `World` (users collection, chats collection with
  their message subcollections, and the browser's localStorage).
* Timestamps are milliseconds since the epoch as `Nat` (JS `Date.getTime()`).
  JS subtraction can be negative where Nat truncates to 0; in every guard of
  the source (`timeDiff > limit`) both readings make the guard false, so the
  embedding is faithful.
* `async` service calls become pure functions; a thrown error on a policy
  path does not occur in the source (policy rejections are structured
  `{success, error}` results), so the functions are total.
* The ambient authenticated user (`auth.currentUser`) becomes an explicit
  `callerUid` argument; server-generated ids and `serverTimestamp()` become
  explicit arguments.
-/

namespace Czat

/-- Structured service result `{ success: boolean; error?: string }`. -/
structure SvcResult where
  success : Bool
  error : Option String
deriving Repr, DecidableEq

/-- A `users/{uid}` document, restricted to the fields the claims touch:
`publicKey` is the published E2EE public key (absent when E2EE is off). -/
structure UserDoc where
  userId : String
  publicKey : Option String
deriving Repr, DecidableEq

/-- A `chats/{c}/messages/{m}` document. `createdAt` is `none` while the
server timestamp is pending; `deletedAt` set marks the tombstone. -/
structure MessageDoc where
  msgId : String
  text : String
  senderId : String
  receiverId : String
  createdAt : Option Nat
  status : String
  replyTo : Option String
  reactions : List (String × List String)
  isPinned : Bool
  isEdited : Bool
  editedAt : Option Nat
  deletedAt : Option Nat
  forwardedFrom : Option String
  isEncrypted : Bool
  iv : Option String
  senderPublicKey : Option String
  expiresAt : Option Nat
deriving Repr, DecidableEq

/-- A `chats/{c}` document. The message subcollection is carried inside the
chat, listed in ascending `createdAt` order (the order the live message
subscription delivers). Absent map fields read as the empty list. -/
structure ChatDoc where
  chatId : String
  type : String
  participants : List String
  admins : List String
  name : String
  description : String
  lastMessage : String
  lastMessageAt : Option Nat
  lastMessageSender : String
  unreadCounts : List (String × Nat)
  archivedStatus : List (String × Bool)
  mutedStatus : List (String × Bool)
  pinnedStatus : List (String × Bool)
  deletedBy : List (String × Bool)
  messages : List MessageDoc
deriving Repr, DecidableEq

/-- The collaborator store plus the device's localStorage (private keys live
under key `e2ee_priv_` ++ uid, as in the source). -/
structure World where
  users : List UserDoc
  chats : List ChatDoc
  localStorage : List (String × String)
deriving Repr, DecidableEq

/-- Reading one key of a Firestore map field (`m?.[k]`): first entry wins. -/
def lookupKey {α : Type} : List (String × α) → String → Option α
  | [], _ => none
  | e :: rest, k => if e.1 == k then some e.2 else lookupKey rest k

/-- `data.unreadCounts?.[uid] || 0`. -/
def getCount (m : List (String × Nat)) (k : String) : Nat :=
  (lookupKey m k).getD 0

/-- A Firestore field-path update `map.k = v`: replaces the entry for `k`,
leaving every other key untouched. -/
def setKey {α : Type} : List (String × α) → String → α → List (String × α)
  | [], k, v => [(k, v)]
  | e :: rest, k, v => if e.1 == k then (k, v) :: rest else e :: setKey rest k v

/-- Point read `getDoc(doc(db, 'chats', cid))`: chat ids are unique, the
first match is the document. -/
def findChat : List ChatDoc → String → Option ChatDoc
  | [], _ => none
  | c :: rest, cid => if c.chatId == cid then some c else findChat rest cid

/-- `updateDoc` on `chats/{cid}`: rewrites the (unique) chat with that id. -/
def updateChat : List ChatDoc → String → (ChatDoc → ChatDoc) → List ChatDoc
  | [], _, _ => []
  | c :: rest, cid, f => if c.chatId == cid then f c :: rest else c :: updateChat rest cid f

/-- Point read inside a message subcollection: message ids are unique. -/
def findMsgIn : List MessageDoc → String → Option MessageDoc
  | [], _ => none
  | m :: rest, mid => if m.msgId == mid then some m else findMsgIn rest mid

/-- Point read `getDoc(doc(db, 'chats', c, 'messages', mid))`. -/
def findMsg (c : ChatDoc) (mid : String) : Option MessageDoc :=
  findMsgIn c.messages mid

/-- Rewrite of the (unique) message with a given id. -/
def updateMsgIn : List MessageDoc → String → (MessageDoc → MessageDoc) → List MessageDoc
  | [], _, _ => []
  | m :: rest, mid, f => if m.msgId == mid then f m :: rest else m :: updateMsgIn rest mid f

/-- `updateDoc` on `chats/{c}/messages/{mid}`. -/
def updateMsg (c : ChatDoc) (mid : String) (f : MessageDoc → MessageDoc) : ChatDoc :=
  { c with messages := updateMsgIn c.messages mid f }

/-- Point read `getDoc(doc(db, 'users', uid))`. -/
def findUser : List UserDoc → String → Option UserDoc
  | [], _ => none
  | u :: rest, uid => if u.userId == uid then some u else findUser rest uid

/-- `userSnap.data()?.publicKey` for a user id. -/
def userPublicKey (w : World) (uid : String) : Option String :=
  (findUser w.users uid).bind UserDoc.publicKey

/-- The cryptographic collaborator (browser WebCrypto: ECDH P-256 key
agreement plus AES-GCM) is outside this repository; the spec's section 6
specifies it only at the interface. It is embedded as a structure whose
Prop fields are exactly the two collaborator laws the spec relies on:
key agreement is symmetric across a key pair (`derive_comm`), and AEAD
decryption under the same key and nonce inverts encryption
(`decrypt_encrypt`). `importPriv`/`importPub` model
`crypto.subtle.importKey` on base64 material and may fail; `pubOf` is the
public half of the key pair a private key belongs to. -/
structure Crypto where
  Plain : Type
  Ctxt : Type
  Priv : Type
  Pub : Type
  Key : Type
  importPriv : String → Option Priv
  importPub : String → Option Pub
  pubOf : Priv → Pub
  derive : Priv → Pub → Key
  encrypt : Key → String → Plain → Ctxt
  decrypt : Key → String → Ctxt → Option Plain
  derive_comm : ∀ a b, derive a (pubOf b) = derive b (pubOf a)
  decrypt_encrypt : ∀ k iv m, decrypt k iv (encrypt k iv m) = some m

/-- getStoredPrivateKey (chatService.ts lines 479-499): reads
`e2ee_priv_` ++ uid from localStorage and imports it; `none` when the key is
absent or the import fails. -/
def getStoredPrivateKey (C : Crypto) (localStore : List (String × String)) (uid : String) :
    Option C.Priv :=
  match lookupKey localStore ("e2ee_priv_" ++ uid) with
  | none => none
  | some b64 => C.importPriv b64

/-- encryptText (chatService.ts lines 501-537): requires the caller's local
private key (else it throws, modelled as `none`), imports the peer's public
key, derives the shared AES key from (my private, their public), and
encrypts under a fresh nonce `iv` (randomness passed in explicitly). -/
def encryptText (C : Crypto) (localStore : List (String × String)) (uid : String)
    (text : C.Plain) (otherPublicKeyBase64 : String) (iv : String) :
    Option (C.Ctxt × String) :=
  match getStoredPrivateKey C localStore uid with
  | none => none
  | some privKey =>
    match C.importPub otherPublicKeyBase64 with
    | none => none
    | some otherPubKey => some (C.encrypt (C.derive privKey otherPubKey) iv text, iv)

/-- decryptText (chatService.ts lines 539-570): symmetric to encryptText;
derives the shared key from (my private, their public) and decrypts, `none`
on missing key material or AEAD authentication failure. -/
def decryptText (C : Crypto) (localStore : List (String × String)) (uid : String)
    (ciphertext : C.Ctxt) (iv : String) (otherPublicKeyBase64 : String) : Option C.Plain :=
  match getStoredPrivateKey C localStore uid with
  | none => none
  | some privKey =>
    match C.importPub otherPublicKeyBase64 with
    | none => none
    | some otherPubKey => C.decrypt (C.derive privKey otherPubKey) iv ciphertext

/-- The other participant of a chat from the caller's point of view:
`data.participants.find(uid => uid !== currentUser.uid)`. -/
def otherParticipant (c : ChatDoc) (callerUid : String) : Option String :=
  c.participants.find? (fun uid => uid != callerUid)

/-- The encryption decision of sendMessage (chatService.ts lines 688-709):
`some (ciphertext, iv, senderPublicKey)` exactly when the source sets
`isEncrypted = true`. `enc` models `this.encryptText` for the caller
(including its possible failure, which the source catches and downgrades). -/
def encryptionOutcome (enc : String → Option (String × String))
    (callerUid : String) (w : World) (c : ChatDoc) (receiverId : String) :
    Option (String × String × String) :=
  if c.type == "direct" && receiverId != "group" then
    match otherParticipant c callerUid with
    | none => none
    | some otherUserId =>
      match userPublicKey w otherUserId, userPublicKey w callerUid,
            lookupKey w.localStorage ("e2ee_priv_" ++ callerUid) with
      | some otherPub, some _, some _ =>
        match enc otherPub with
        | some (ct, iv) => some (ct, iv, (userPublicKey w callerUid).getD "")
        | none => none
      | _, _, _ => none
  else none

/-- The message document sendMessage passes to addDoc (chatService.ts lines
712-725), given the encryption decision `eo`. -/
def sentMessageDoc (eo : Option (String × String × String)) (callerUid : String)
    (now : Nat) (newMsgId text receiverId : String) (replyTo : Option String)
    (expiresAt : Option Nat) : MessageDoc :=
  { msgId := newMsgId
    text := match eo with | some (ct, _, _) => ct | none => text
    senderId := callerUid
    receiverId := receiverId
    createdAt := some now
    status := "sent"
    replyTo := replyTo
    reactions := []
    isPinned := false
    isEdited := false
    editedAt := none
    deletedAt := none
    forwardedFrom := none
    isEncrypted := eo.isSome
    iv := eo.map (fun x => x.2.1)
    senderPublicKey := eo.map (fun x => x.2.2)
    expiresAt := expiresAt }

/-- The unread-counter part of sendMessage's metadata update (chatService.ts
lines 735-745): one increment per recipient, computed from the snapshot
read at the start of the call. -/
def sendUnreadUpdate (callerUid receiverId : String) (c : ChatDoc) : List (String × Nat) :=
  if receiverId == "group" then
    c.participants.foldl
      (fun acc uid =>
        if uid != callerUid then setKey acc uid (getCount c.unreadCounts uid + 1) else acc)
      c.unreadCounts
  else setKey c.unreadCounts receiverId (getCount c.unreadCounts receiverId + 1)

/-- The chat update sendMessage passes to updateDoc (chatService.ts lines
727-747), together with the addDoc append into the subcollection. -/
def sendChatUpdate (encrypted : Bool) (callerUid : String) (now : Nat) (text : String)
    (newMsg : MessageDoc) (newCounts : List (String × Nat)) (c0 : ChatDoc) : ChatDoc :=
  { c0 with
    messages := c0.messages ++ [newMsg]
    lastMessage := if encrypted then "🔒 Encrypted message" else text
    lastMessageAt := some now
    lastMessageSender := callerUid
    unreadCounts := newCounts }

/-- sendMessage (chatService.ts lines 673-748). Returns the new world: the
source's return type is a void promise, so nothing but the store mutation is
observable to the caller. On a nonexistent chat the source does a bare
`return`. `enc` is the caller's `encryptText` applied to `text` (already
partially applied to the plaintext); `now` is `serverTimestamp()`, `newMsgId`
the id `addDoc` generates. -/
def sendMessage (enc : String → Option (String × String)) (callerUid : String)
    (now : Nat) (newMsgId : String) (w : World) (chatId text receiverId : String)
    (replyTo : Option String) (expiresAt : Option Nat) : World :=
  match findChat w.chats chatId with
  | none => w
  | some c =>
    let eo := encryptionOutcome enc callerUid w c receiverId
    { w with
      chats := updateChat w.chats chatId
        (sendChatUpdate eo.isSome callerUid now text
          (sentMessageDoc eo callerUid now newMsgId text receiverId replyTo expiresAt)
          (sendUnreadUpdate callerUid receiverId c)) }

/-- Iterated sendMessage with a fixed sender and receiver, one call per
(message id, text) item: the shape of "A sends N messages to B". -/
def sendAll (enc : String → Option (String × String)) (callerUid : String) (now : Nat)
    (chatId receiverId : String) (items : List (String × String)) (w : World) : World :=
  items.foldl
    (fun acc it => sendMessage enc callerUid now it.1 acc chatId it.2 receiverId none none) w

/-- editMessage (chatService.ts lines 1064-1099): sender-only, 15-minute
window from `createdAt` (skipped if the timestamp is still pending), no
check of `deletedAt`; success rewrites text and sets the edited flags. -/
def editMessage (callerUid : String) (now : Nat) (w : World)
    (chatId messageId newText : String) : SvcResult × World :=
  match findChat w.chats chatId with
  | none => (⟨false, some "Message not found"⟩, w)
  | some c =>
    match findMsg c messageId with
    | none => (⟨false, some "Message not found"⟩, w)
    | some m =>
      if m.senderId != callerUid then
        (⟨false, some "You can only edit your own messages"⟩, w)
      else if (match m.createdAt with
               | some t => decide (now - t > 15 * 60 * 1000)
               | none => false) then
        (⟨false, some "Messages can only be edited within 15 minutes"⟩, w)
      else
        (⟨true, none⟩,
         { w with
           chats := updateChat w.chats chatId (fun c0 =>
             updateMsg c0 messageId (fun m0 =>
               { m0 with text := newText, isEdited := true, editedAt := some now })) })

/-- deleteMessage (chatService.ts lines 1154-1188): sender-only, 60-minute
window from `createdAt`; success is a tombstone (fixed placeholder text plus
`deletedAt`). -/
def deleteMessage (callerUid : String) (now : Nat) (w : World)
    (chatId messageId : String) : SvcResult × World :=
  match findChat w.chats chatId with
  | none => (⟨false, some "Message not found"⟩, w)
  | some c =>
    match findMsg c messageId with
    | none => (⟨false, some "Message not found"⟩, w)
    | some m =>
      if m.senderId != callerUid then
        (⟨false, some "You can only delete your own messages"⟩, w)
      else if (match m.createdAt with
               | some t => decide (now - t > 60 * 60 * 1000)
               | none => false) then
        (⟨false, some "Messages can only be deleted within 1 hour"⟩, w)
      else
        (⟨true, none⟩,
         { w with
           chats := updateChat w.chats chatId (fun c0 =>
             updateMsg c0 messageId (fun m0 =>
               { m0 with deletedAt := some now, text := "Message deleted" })) })

/-- addGroupMember (chatService.ts lines 299-337): admin-only, group-only,
rejects duplicates; success appends the member and zeroes their map entries. -/
def addGroupMember (callerUid : String) (w : World) (chatId userId : String) :
    SvcResult × World :=
  match findChat w.chats chatId with
  | none => (⟨false, some "Chat not found"⟩, w)
  | some c =>
    if c.type != "group" then
      (⟨false, some "Can only add members to group chats"⟩, w)
    else if !(c.admins.contains callerUid) then
      (⟨false, some "Only admins can add members"⟩, w)
    else if c.participants.contains userId then
      (⟨false, some "User already in group"⟩, w)
    else
      (⟨true, none⟩,
       { w with
         chats := updateChat w.chats chatId (fun c0 =>
           { c0 with
             participants := c0.participants ++ [userId]
             unreadCounts := setKey c0.unreadCounts userId 0
             archivedStatus := setKey c0.archivedStatus userId false
             mutedStatus := setKey c0.mutedStatus userId false
             pinnedStatus := setKey c0.pinnedStatus userId false }) })

/-- removeGroupMember (chatService.ts lines 340-377): requires the caller to
be an admin or to be removing themselves; rejects removing the last
remaining admin; success filters the member out of both lists. -/
def removeGroupMember (callerUid : String) (w : World) (chatId userId : String) :
    SvcResult × World :=
  match findChat w.chats chatId with
  | none => (⟨false, some "Chat not found"⟩, w)
  | some c =>
    if c.type != "group" then
      (⟨false, some "Can only remove members from group chats"⟩, w)
    else if !(c.admins.contains callerUid) && callerUid != userId then
      (⟨false, some "Only admins can remove members"⟩, w)
    else if c.admins.contains userId && c.admins.length == 1 then
      (⟨false, some "Cannot remove the last admin"⟩, w)
    else
      (⟨true, none⟩,
       { w with
         chats := updateChat w.chats chatId (fun c0 =>
           { c0 with
             participants := c0.participants.filter (fun p => p != userId)
             admins := c0.admins.filter (fun a => a != userId) }) })

/-- leaveGroup (chatService.ts lines 380-385): self-removal. -/
def leaveGroup (callerUid : String) (w : World) (chatId : String) : SvcResult × World :=
  removeGroupMember callerUid w chatId callerUid

/-- makeAdmin (chatService.ts lines 388-418): admin-only, group-only,
rejects promoting an existing admin; the source never checks that the
promoted user is a participant. -/
def makeAdmin (callerUid : String) (w : World) (chatId userId : String) :
    SvcResult × World :=
  match findChat w.chats chatId with
  | none => (⟨false, some "Chat not found"⟩, w)
  | some c =>
    if c.type != "group" then
      (⟨false, some "Can only make admins in group chats"⟩, w)
    else if !(c.admins.contains callerUid) then
      (⟨false, some "Only admins can make other admins"⟩, w)
    else if c.admins.contains userId then
      (⟨false, some "User is already an admin"⟩, w)
    else
      (⟨true, none⟩,
       { w with
         chats := updateChat w.chats chatId (fun c0 =>
           { c0 with admins := c0.admins ++ [userId] }) })

/-- markMessagesAsRead (chatService.ts lines 1143-1151): sets the caller's
own unread counter to 0 via a single field-path update. -/
def markMessagesAsRead (callerUid : String) (w : World) (chatId : String) : World :=
  { w with
    chats := updateChat w.chats chatId (fun c0 =>
      { c0 with unreadCounts := setKey c0.unreadCounts callerUid 0 }) }

/-- createChat (chatService.ts lines 223-255): queries the chats whose
participants contain the caller, returns the id of the first one that also
contains `otherUserId` (whatever its type); only otherwise creates a fresh
direct chat with the two participants and zeroed unread counters. `newChatId`
is the id `addDoc` would generate. -/
def createChat (callerUid newChatId : String) (w : World) (otherUserId : String) :
    String × World :=
  match (w.chats.filter (fun c => c.participants.contains callerUid)).find?
      (fun c => c.participants.contains otherUserId) with
  | some c => (c.chatId, w)
  | none =>
    (newChatId,
     { w with
       chats := w.chats ++
         [{ chatId := newChatId
            type := "direct"
            participants := [callerUid, otherUserId]
            admins := []
            name := ""
            description := ""
            lastMessage := ""
            lastMessageAt := none
            lastMessageSender := ""
            unreadCounts := [(callerUid, 0), (otherUserId, 0)]
            archivedStatus := []
            mutedStatus := []
            pinnedStatus := []
            deletedBy := []
            messages := [] }] })

/-- One destination of forwardMessage (chatService.ts lines 770-802):
skipped silently when the chat does not exist or has no participant other
than the caller; otherwise appends a copy of the original body (no
re-encryption, and the copy carries no encryption metadata) and bumps the
receiver's unread counter. -/
def forwardOne (callerUid : String) (now : Nat) (origText fromChatId newMsgId : String)
    (w : World) (toChatId : String) : World :=
  match findChat w.chats toChatId with
  | none => w
  | some c =>
    match otherParticipant c callerUid with
    | none => w
    | some receiverId =>
      let newMsg : MessageDoc :=
        { msgId := newMsgId
          text := origText
          senderId := callerUid
          receiverId := receiverId
          createdAt := some now
          status := "sent"
          replyTo := none
          reactions := []
          isPinned := false
          isEdited := false
          editedAt := none
          deletedAt := none
          forwardedFrom := some fromChatId
          isEncrypted := false
          iv := none
          senderPublicKey := none
          expiresAt := none }
      { w with
        chats := updateChat w.chats toChatId (fun c0 =>
          { c0 with
            messages := c0.messages ++ [newMsg]
            lastMessage := origText
            lastMessageAt := some now
            lastMessageSender := callerUid
            unreadCounts :=
              setKey c0.unreadCounts receiverId (getCount c.unreadCounts receiverId + 1) }) }

/-- forwardMessage (chatService.ts lines 751-805): structured not-found on a
missing source message, refuses tombstoned messages, then best-effort
fan-out over the destinations. `freshId` maps a destination chat id to the
message id `addDoc` generates there. -/
def forwardMessage (callerUid : String) (now : Nat) (freshId : String → String)
    (w : World) (fromChatId messageId : String) (toChatIds : List String) :
    SvcResult × World :=
  match (findChat w.chats fromChatId).bind (fun c => findMsg c messageId) with
  | none => (⟨false, some "Message not found"⟩, w)
  | some m =>
    if m.deletedAt.isSome then
      (⟨false, some "Cannot forward deleted message"⟩, w)
    else
      (⟨true, none⟩,
       toChatIds.foldl
         (fun acc tid => forwardOne callerUid now m.text fromChatId (freshId tid) acc tid) w)

/-- JS `toLowerCase()`, modelled per character over the underlying list. -/
def lowerChars (s : String) : List Char :=
  s.data.map Char.toLower

/-- Case-insensitive substring match:
`text.toLowerCase().includes(term.toLowerCase())`. -/
def containsIC (hay needle : String) : Bool :=
  decide (lowerChars needle <:+: lowerChars hay)

/-- The blank-term guard `!term.trim()`: true when the term is empty or
whitespace only. -/
def blankTerm (s : String) : Bool :=
  s.data.all (fun c => c == ' ' || c == '\t' || c == '\n' || c == '\r')

/-- The `orderBy('createdAt', 'desc'), limit(cap)` query window over a
chat's message subcollection (stored ascending). -/
def descWindow (cap : Nat) (msgs : List MessageDoc) : List MessageDoc :=
  msgs.reverse.take cap

/-- The text the in-chat search loop matches a message against
(chatService.ts lines 643-650): decrypt when the message is encrypted with
its metadata present and a local private key is available; `none` models the
loop's `continue` on a decryption failure. `dec` models `this.decryptText`
for the current user: ciphertext, iv, sender public key to plaintext. -/
def resolveSearchText (dec : String → String → String → Option String)
    (privKeyAvailable : Bool) (m : MessageDoc) : Option String :=
  match m.isEncrypted, m.iv, m.senderPublicKey, privKeyAvailable with
  | true, some iv, some spk, true => dec m.text iv spk
  | _, _, _, _ => some m.text

/-- searchMessagesInChat (chatService.ts lines 624-670): empty on a blank
term, else scan the last 500 messages newest first, skip tombstones, decrypt
opportunistically (skip on failure), and keep case-insensitive substring
matches, with the decrypted text substituted in the result. -/
def searchMessagesInChat (dec : String → String → String → Option String)
    (privKeyAvailable : Bool) (c : ChatDoc) (searchQuery : String) : List MessageDoc :=
  if blankTerm searchQuery then []
  else
    (descWindow 500 c.messages).filterMap (fun m =>
      if m.deletedAt.isSome then none
      else
        match resolveSearchText dec privKeyAvailable m with
        | none => none
        | some t => if containsIC t searchQuery then some { m with text := t } else none)

/-- searchAllMessages (chatService.ts lines 849-922): over every chat the
caller participates in, scan the last 100 messages newest first, skip
tombstones, and match the raw stored text case-insensitively — no
decryption is attempted. Chats with no match are omitted. -/
def searchAllMessages (uid : String) (w : World) (queryText : String) :
    List (String × List MessageDoc) :=
  if blankTerm queryText then []
  else
    (w.chats.filter (fun c => c.participants.contains uid)).filterMap (fun c =>
      let matching := (descWindow 100 c.messages).filter (fun m =>
        !m.deletedAt.isSome && containsIC m.text queryText)
      if matching.isEmpty then none else some (c.chatId, matching))

/-- The ChatScreen message-subscription callback's self-destruct filter
(src/unnamed/part_003 lines 91-96): keep a message when it has no expiry or
its expiry is still in the future at the client's clock `now`. -/
def activeMessages (now : Nat) (msgs : List MessageDoc) : List MessageDoc :=
  msgs.filter (fun m =>
    match m.expiresAt with
    | none => true
    | some e => decide (e > now))

/-- The spec's stated encryption precondition (section 4.1), written from the
spec's words for comparison with the code's `encryptionOutcome`: the chat is
direct, the other participant and the sender both have a published public
key, and the sender holds local private key material. -/
def specEncryptsWhen (w : World) (c : ChatDoc) (callerUid : String) : Bool :=
  c.type == "direct"
    && (match otherParticipant c callerUid with
        | some other => (userPublicKey w other).isSome
        | none => false)
    && (userPublicKey w callerUid).isSome
    && (lookupKey w.localStorage ("e2ee_priv_" ++ callerUid)).isSome

/-- The admin invariant the spec states for group chats (section 3): admins
form a subset of the participants and stay non-empty while the group has
members; both lists are sets (no duplicates). -/
def GroupInv (c : ChatDoc) : Prop :=
  (∀ a ∈ c.admins, a ∈ c.participants)
    ∧ (c.participants ≠ [] → c.admins ≠ [])
    ∧ c.admins.Nodup ∧ c.participants.Nodup

instance (c : ChatDoc) : Decidable (GroupInv c) := by
  unfold GroupInv; infer_instance

/-- A concrete executable model of the cryptographic collaborator, used to
witness the round-trip theorem: Diffie-Hellman key agreement in the
multiplicative group modulo the prime 251 with generator 6, a two-entry
two-entry key table for the base64 blobs, and an additive cipher over Nat
payloads. Its two Prop fields are genuine theorems, not assumptions. -/
def dhCrypto : Crypto where
  Plain := Nat
  Ctxt := Nat
  Priv := Nat
  Pub := Nat
  Key := Nat
  importPriv s := if s == "skA" then some 3 else if s == "skB" then some 5 else none
  importPub s :=
    if s == "pkA" then some (6 ^ 3 % 251)
    else if s == "pkB" then some (6 ^ 5 % 251)
    else none
  pubOf b := 6 ^ b % 251
  derive a pub := pub ^ a % 251
  encrypt k _ m := m + k
  decrypt k _ ct := if k ≤ ct then some (ct - k) else none
  derive_comm := by
    intro a b
    show (6 ^ b % 251) ^ a % 251 = (6 ^ a % 251) ^ b % 251
    rw [← Nat.pow_mod, ← Nat.pow_mod, ← pow_mul, ← pow_mul, Nat.mul_comm]
  decrypt_encrypt := by
    intro k iv m
    show (if k ≤ m + k then some (m + k - k) else none) = some m
    rw [if_pos (Nat.le_add_left k m), Nat.add_sub_cancel]

/-- A message document with every optional field absent, used as the base of
the concrete documents below. -/
def blankMsg : MessageDoc :=
  { msgId := ""
    text := ""
    senderId := ""
    receiverId := ""
    createdAt := none
    status := "sent"
    replyTo := none
    reactions := []
    isPinned := false
    isEdited := false
    editedAt := none
    deletedAt := none
    forwardedFrom := none
    isEncrypted := false
    iv := none
    senderPublicKey := none
    expiresAt := none }

/-- A chat document with every field neutral, used as the base of the
concrete documents below. -/
def blankChat : ChatDoc :=
  { chatId := ""
    type := ""
    participants := []
    admins := []
    name := ""
    description := ""
    lastMessage := ""
    lastMessageAt := none
    lastMessageSender := ""
    unreadCounts := []
    archivedStatus := []
    mutedStatus := []
    pinnedStatus := []
    deletedBy := []
    messages := [] }

/-- A world with nothing in it. -/
def wEmpty : World := { users := [], chats := [], localStorage := [] }

/-- A tombstoned direct-chat message from sender a, created at t = 0. -/
def msgC2 : MessageDoc :=
  { blankMsg with
    msgId := "m1", text := "Message deleted", senderId := "a", receiverId := "b",
    createdAt := some 0, deletedAt := some 0 }

/-- Direct chat between a and b holding the tombstoned message. -/
def chatC2 : ChatDoc :=
  { blankChat with
    chatId := "c1", type := "direct", participants := ["a", "b"], messages := [msgC2] }

/-- World for the editMessage experiments. -/
def wC2 : World := { users := [], chats := [chatC2], localStorage := [] }

/-- Direct chat between a and b, no messages, for the sendMessage policy
experiments (neither user has published keys). -/
def chatC3 : ChatDoc :=
  { blankChat with chatId := "c3", type := "direct", participants := ["a", "b"] }

/-- World for the sendMessage policy experiments. -/
def wC3 : World := { users := [], chats := [chatC3], localStorage := [] }

/-- The same chat after both users enabled E2EE: both profiles carry public
keys and the sender a has local private key material. -/
def wC3k : World :=
  { users := [⟨"a", some "pkA"⟩, ⟨"b", some "pkB"⟩],
    chats := [chatC3],
    localStorage := [("e2ee_priv_a", "skA")] }

/-- A group chat of a and b whose sole admin is a. -/
def chatC4 : ChatDoc :=
  { blankChat with
    chatId := "g", type := "group", participants := ["a", "b"], admins := ["a"] }

/-- World for the group-membership experiments. -/
def wC4 : World := { users := [], chats := [chatC4], localStorage := [] }

/-- Direct chat between a and b with zeroed unread counters. -/
def chatC5 : ChatDoc :=
  { blankChat with
    chatId := "d", type := "direct", participants := ["a", "b"],
    unreadCounts := [("a", 0), ("b", 0)] }

/-- World for the unread-accounting experiments. -/
def wC5 : World := { users := [], chats := [chatC5], localStorage := [] }

/-- A live (non-deleted) direct-chat message from sender a, created at t = 0. -/
def msgC6 : MessageDoc :=
  { blankMsg with
    msgId := "m6", text := "hello", senderId := "a", receiverId := "b",
    createdAt := some 0 }

/-- Direct chat holding that message. -/
def chatC6 : ChatDoc :=
  { blankChat with
    chatId := "c6", type := "direct", participants := ["a", "b"], messages := [msgC6] }

/-- World for the deleteMessage experiments. -/
def wC6 : World := { users := [], chats := [chatC6], localStorage := [] }

/-- A message whose self-destruct expiry (t = 5) is already in the past at
any evaluation time past 5, with text matching the search term. -/
def msgC7 : MessageDoc :=
  { blankMsg with
    msgId := "m7", text := "say hello there", senderId := "a", receiverId := "b",
    createdAt := some 0, expiresAt := some 5 }

/-- Direct chat holding the expired message. -/
def chatC7 : ChatDoc :=
  { blankChat with
    chatId := "c7", type := "direct", participants := ["a", "b"], messages := [msgC7] }

/-- World for the self-destruct experiments. -/
def wC7 : World := { users := [], chats := [chatC7], localStorage := [] }

/-- The direct chat createChat creates between a and b under id c1. -/
def chatC8new : ChatDoc :=
  { blankChat with
    chatId := "c1", type := "direct", participants := ["a", "b"],
    unreadCounts := [("a", 0), ("b", 0)] }

/-- The world after a first createChat between a and b on the empty store. -/
def wC8w : World := { users := [], chats := [chatC8new], localStorage := [] }

/-- A group chat containing both a and b (and x), listed before the direct
chat between a and b in the store. -/
def chatC8g : ChatDoc :=
  { blankChat with
    chatId := "g8", type := "group", participants := ["a", "b", "x"], admins := ["a"] }

/-- The direct chat between a and b. -/
def chatC8d : ChatDoc :=
  { blankChat with chatId := "d8", type := "direct", participants := ["a", "b"] }

/-- World in which a direct chat between a and b exists but a group chat
containing both is found first by createChat's scan. -/
def wC8 : World := { users := [], chats := [chatC8g, chatC8d], localStorage := [] }

/-- An encrypted message whose STORED ciphertext happens to contain the
search term as a substring. -/
def msgC9 : MessageDoc :=
  { blankMsg with
    msgId := "m9", text := "xxhelloyy", senderId := "v", receiverId := "u",
    createdAt := some 0, isEncrypted := true, iv := some "i",
    senderPublicKey := some "p" }

/-- Direct chat of u and v holding the encrypted message. -/
def chatC9 : ChatDoc :=
  { blankChat with
    chatId := "c9", type := "direct", participants := ["u", "v"], messages := [msgC9] }

/-- World for the search experiments. -/
def wC9 : World := { users := [], chats := [chatC9], localStorage := [] }

/-- An encrypted message whose ciphertext CT1 decrypts (under decC9) to a
plaintext containing the search term. -/
def msgC9p : MessageDoc :=
  { blankMsg with
    msgId := "mp", text := "CT1", senderId := "v", receiverId := "u",
    createdAt := some 1, isEncrypted := true, iv := some "i",
    senderPublicKey := some "p" }

/-- Chat for the in-chat search witness: one decryptable encrypted message. -/
def chatC9w : ChatDoc :=
  { blankChat with
    chatId := "c9w", type := "direct", participants := ["u", "v"], messages := [msgC9p] }

/-- A decryption oracle for the search witness: only ciphertext CT1
decrypts, to a plaintext containing the term. -/
def decC9 (ct _iv _spk : String) : Option String :=
  if ct == "CT1" then some "Hello there" else none

/-! Helper lemmas about the store primitives. -/

theorem lookupKey_setKey_self {α : Type} (m : List (String × α)) (k : String) (v : α) :
    lookupKey (setKey m k v) k = some v := by
  induction m with
  | nil => simp [setKey, lookupKey]
  | cons e rest ih =>
    simp only [setKey]
    split
    · simp [lookupKey]
    · simp [lookupKey, *]

theorem lookupKey_setKey_ne {α : Type} (m : List (String × α)) (k k' : String) (v : α)
    (h : k' ≠ k) : lookupKey (setKey m k v) k' = lookupKey m k' := by
  have hkk : (k == k') = false := by
    simp only [beq_eq_false_iff_ne, ne_eq]
    exact fun hh => h hh.symm
  induction m with
  | nil => simp [setKey, lookupKey, hkk]
  | cons e rest ih =>
    simp only [setKey]
    split
    · next he =>
      have he' : e.1 = k := by simpa using he
      simp [lookupKey, hkk, he']
    · simp only [lookupKey]
      split
      · rfl
      · exact ih

theorem getCount_setKey_self (m : List (String × Nat)) (k : String) (v : Nat) :
    getCount (setKey m k v) k = v := by
  simp [getCount, lookupKey_setKey_self]

theorem getCount_setKey_ne (m : List (String × Nat)) (k k' : String) (v : Nat)
    (h : k' ≠ k) : getCount (setKey m k v) k' = getCount m k' := by
  simp [getCount, lookupKey_setKey_ne m k k' v h]

theorem findChat_updateChat (l : List ChatDoc) (cid : String) (f : ChatDoc → ChatDoc)
    (hf : ∀ c, (f c).chatId = c.chatId) :
    findChat (updateChat l cid f) cid = (findChat l cid).map f := by
  induction l with
  | nil => simp [findChat, updateChat]
  | cons c rest ih =>
    simp only [updateChat]
    split
    · next h => simp [findChat, hf, h]
    · next h => simpa [findChat, h] using ih

theorem findMsgIn_updateMsgIn (l : List MessageDoc) (mid : String)
    (f : MessageDoc → MessageDoc) (hf : ∀ m, (f m).msgId = m.msgId) :
    findMsgIn (updateMsgIn l mid f) mid = (findMsgIn l mid).map f := by
  induction l with
  | nil => simp [findMsgIn, updateMsgIn]
  | cons m rest ih =>
    simp only [updateMsgIn]
    split
    · next h => simp [findMsgIn, hf, h]
    · next h => simpa [findMsgIn, h] using ih

theorem findMsg_updateMsg (c : ChatDoc) (mid : String) (f : MessageDoc → MessageDoc)
    (hf : ∀ m, (f m).msgId = m.msgId) :
    findMsg (updateMsg c mid f) mid = (findMsg c mid).map f := by
  simp [findMsg, updateMsg, findMsgIn_updateMsgIn c.messages mid f hf]

theorem mem_filter_bne {l : List String} {a u : String} :
    a ∈ l.filter (fun p => p != u) ↔ a ∈ l ∧ a ≠ u := by
  simp [List.mem_filter, bne_iff_ne]

theorem filter_bne_eq_self {l : List String} {u : String} (h : u ∉ l) :
    l.filter (fun p => p != u) = l := by
  apply List.filter_eq_self.mpr
  intro a ha
  exact bne_iff_ne.mpr (fun he => h (he ▸ ha))

theorem filter_bne_ne_nil {l : List String} {u : String} (hnd : l.Nodup)
    (hu : u ∈ l) (hlen : l.length ≠ 1) : l.filter (fun p => p != u) ≠ [] := by
  intro hnil
  have hall : ∀ a ∈ l, a = u := by
    intro a ha
    have := List.filter_eq_nil_iff.mp hnil a ha
    simpa [bne_iff_ne] using this
  cases l with
  | nil => simp at hu
  | cons x rest =>
    cases rest with
    | nil => exact hlen rfl
    | cons y rest2 =>
      have hx : x = u := hall x (by simp)
      have hy : y = u := hall y (by simp)
      have hnd' := List.nodup_cons.mp hnd
      exact hnd'.1 (by simp [hx, hy])

/-- C1: E2EE round trip. For every model of the cryptographic collaborator
and every pair of users A and B whose published public keys match their
locally stored private keys, a ciphertext produced by A with
`encryptText(m, B.publicKey)` is recovered exactly as `m` by B calling
`decryptText(ciphertext, iv, A.publicKey)`: the two-party ECDH derivation
yields the same symmetric key on both sides. -/
theorem C1_e2ee_roundtrip (C : Crypto) (lsA lsB : List (String × String))
    (uidA uidB privStrA privStrB pubStrA pubStrB iv : String)
    (privA privB : C.Priv) (m : C.Plain) (ct : C.Ctxt)
    (hA : lookupKey lsA ("e2ee_priv_" ++ uidA) = some privStrA)
    (hB : lookupKey lsB ("e2ee_priv_" ++ uidB) = some privStrB)
    (hia : C.importPriv privStrA = some privA)
    (hib : C.importPriv privStrB = some privB)
    (hpa : C.importPub pubStrA = some (C.pubOf privA))
    (hpb : C.importPub pubStrB = some (C.pubOf privB))
    (henc : encryptText C lsA uidA m pubStrB iv = some (ct, iv)) :
    decryptText C lsB uidB ct iv pubStrA = some m := by
  unfold encryptText getStoredPrivateKey at henc
  simp only [hA, hia, hpb] at henc
  have hct : C.encrypt (C.derive privA (C.pubOf privB)) iv m = ct :=
    congrArg Prod.fst (Option.some.inj henc)
  unfold decryptText getStoredPrivateKey
  simp only [hB, hib, hpa]
  rw [C.derive_comm privB privA, ← hct]
  exact C.decrypt_encrypt _ iv m

/-- Witness for C1 at the concrete Diffie-Hellman model: user a (private
exponent 3) encrypts the payload 42 for user b (private exponent 5); the
shared key is 126 on both sides and b recovers 42. -/
theorem C1_e2ee_roundtrip_witness :
    decryptText dhCrypto [("e2ee_priv_b", "skB")] "b" (168 : Nat) "iv0" "pkA" =
      some (42 : Nat) :=
  C1_e2ee_roundtrip dhCrypto [("e2ee_priv_a", "skA")] [("e2ee_priv_b", "skB")]
    "a" "b" "skA" "skB" "pkA" "pkB" "iv0" (3 : Nat) (5 : Nat) (42 : Nat) (168 : Nat)
    rfl rfl rfl rfl rfl rfl rfl

/-- C2 (amended): editMessage succeeds exactly when the caller is the
original sender and at most 15 minutes have elapsed since createdAt — the
source does not check whether the message is tombstoned. Rejections return
the structured reason (not-sender, expired; not-found is settled under C10)
without modifying the store, and never throw (the function is total);
success rewrites the text and marks the message edited. -/
theorem C2_edit_policy (callerUid : String) (now : Nat) (w : World)
    (chatId messageId newText : String) (c : ChatDoc) (m : MessageDoc) (t : Nat)
    (hc : findChat w.chats chatId = some c) (hm : findMsg c messageId = some m)
    (ht : m.createdAt = some t) :
    ((editMessage callerUid now w chatId messageId newText).1.success = true
        ↔ (m.senderId = callerUid ∧ now - t ≤ 15 * 60 * 1000))
      ∧ (m.senderId ≠ callerUid →
          editMessage callerUid now w chatId messageId newText
            = (⟨false, some "You can only edit your own messages"⟩, w))
      ∧ (m.senderId = callerUid → now - t > 15 * 60 * 1000 →
          editMessage callerUid now w chatId messageId newText
            = (⟨false, some "Messages can only be edited within 15 minutes"⟩, w))
      ∧ ((editMessage callerUid now w chatId messageId newText).1.success = true →
          findChat (editMessage callerUid now w chatId messageId newText).2.chats chatId
            = some (updateMsg c messageId (fun m0 =>
                { m0 with text := newText, isEdited := true, editedAt := some now }))) := by
  simp only [editMessage, hc, hm, ht]
  split
  · next hbne =>
    have hne : m.senderId ≠ callerUid := bne_iff_ne.mp hbne
    refine ⟨by simp [hne], fun _ => rfl, fun h _ => absurd h hne, fun h => by simp at h⟩
  · next hbeq =>
    have hsx : m.senderId = callerUid := by simpa using hbeq
    split
    · next htt =>
      have hgt : now - t > 15 * 60 * 1000 := of_decide_eq_true htt
      refine ⟨by simp [hsx]; omega, fun h => absurd hsx h, fun _ _ => rfl,
        fun h => by simp at h⟩
    · next htf =>
      have hle : ¬ now - t > 15 * 60 * 1000 := fun hgt => htf (decide_eq_true hgt)
      refine ⟨by simp [hsx]; omega, fun h => absurd hsx h,
        fun _ hgt => absurd hgt hle, fun _ => ?_⟩
      have hid : ∀ c0, (updateMsg c0 messageId (fun m0 =>
          { m0 with text := newText, isEdited := true, editedAt := some now })).chatId
            = c0.chatId := fun _ => rfl
      simp [findChat_updateChat w.chats chatId _ hid, hc]

/-- Counterexample to C2 as stated: message m1 is tombstoned (deletedAt is
set), yet its sender can still edit it inside the 15-minute window —
editMessage succeeds because the source never checks deletedAt, while the
claim requires an edit of a deleted message to be rejected. -/
theorem C2_edit_policy_counterexample :
    findMsg chatC2 "m1" = some msgC2 ∧ msgC2.deletedAt = some 0
      ∧ msgC2.senderId = "a"
      ∧ (editMessage "a" 60000 wC2 "c1" "m1" "hi").1.success = true := by
  decide

/-- Witness for C2 at the boundary: the edit at exactly 15 minutes after
creation succeeds, one millisecond later it is rejected. -/
theorem C2_edit_policy_witness :
    (editMessage "a" 900000 wC2 "c1" "m1" "hi").1.success = true
      ∧ (editMessage "a" 900001 wC2 "c1" "m1" "hi").1.success = false := by
  have h1 := C2_edit_policy "a" 900000 wC2 "c1" "m1" "hi" chatC2 msgC2 0 rfl rfl rfl
  have h2 := C2_edit_policy "a" 900001 wC2 "c1" "m1" "hi" chatC2 msgC2 0 rfl rfl rfl
  refine ⟨h1.1.mpr ⟨rfl, by omega⟩, ?_⟩
  rw [h2.2.2.1 rfl (by omega)]

/-- C6: deleteMessage succeeds exactly when the caller is the original
sender and at most 60 minutes have elapsed since createdAt; success
tombstones the message (text replaced by the fixed placeholder, deletedAt
set) and every rejection returns the structured reason without modifying
the store (not-found is settled under C10). -/
theorem C6_delete_policy (callerUid : String) (now : Nat) (w : World)
    (chatId messageId : String) (c : ChatDoc) (m : MessageDoc) (t : Nat)
    (hc : findChat w.chats chatId = some c) (hm : findMsg c messageId = some m)
    (ht : m.createdAt = some t) :
    ((deleteMessage callerUid now w chatId messageId).1.success = true
        ↔ (m.senderId = callerUid ∧ now - t ≤ 60 * 60 * 1000))
      ∧ (m.senderId ≠ callerUid →
          deleteMessage callerUid now w chatId messageId
            = (⟨false, some "You can only delete your own messages"⟩, w))
      ∧ (m.senderId = callerUid → now - t > 60 * 60 * 1000 →
          deleteMessage callerUid now w chatId messageId
            = (⟨false, some "Messages can only be deleted within 1 hour"⟩, w))
      ∧ ((deleteMessage callerUid now w chatId messageId).1.success = true →
          findChat (deleteMessage callerUid now w chatId messageId).2.chats chatId
            = some (updateMsg c messageId (fun m0 =>
                { m0 with deletedAt := some now, text := "Message deleted" }))) := by
  simp only [deleteMessage, hc, hm, ht]
  split
  · next hbne =>
    have hne : m.senderId ≠ callerUid := bne_iff_ne.mp hbne
    refine ⟨by simp [hne], fun _ => rfl, fun h _ => absurd h hne, fun h => by simp at h⟩
  · next hbeq =>
    have hsx : m.senderId = callerUid := by simpa using hbeq
    split
    · next htt =>
      have hgt : now - t > 60 * 60 * 1000 := of_decide_eq_true htt
      refine ⟨by simp [hsx]; omega, fun h => absurd hsx h, fun _ _ => rfl,
        fun h => by simp at h⟩
    · next htf =>
      have hle : ¬ now - t > 60 * 60 * 1000 := fun hgt => htf (decide_eq_true hgt)
      refine ⟨by simp [hsx]; omega, fun h => absurd hsx h,
        fun _ hgt => absurd hgt hle, fun _ => ?_⟩
      have hid : ∀ c0, (updateMsg c0 messageId (fun m0 =>
          { m0 with deletedAt := some now, text := "Message deleted" })).chatId
            = c0.chatId := fun _ => rfl
      simp [findChat_updateChat w.chats chatId _ hid, hc]

/-- Witness for C6 at the boundary: the delete at exactly 60 minutes after
creation succeeds, one millisecond later it is rejected. -/
theorem C6_delete_policy_witness :
    (deleteMessage "a" 3600000 wC6 "c6" "m6").1.success = true
      ∧ (deleteMessage "a" 3600001 wC6 "c6" "m6").1.success = false := by
  have h1 := C6_delete_policy "a" 3600000 wC6 "c6" "m6" chatC6 msgC6 0 rfl rfl rfl
  have h2 := C6_delete_policy "a" 3600001 wC6 "c6" "m6" chatC6 msgC6 0 rfl rfl rfl
  refine ⟨h1.1.mpr ⟨rfl, by omega⟩, ?_⟩
  rw [h2.2.2.1 rfl (by omega)]

/-- C10 (amended): invoked with a chat id or message id that does not
exist, editMessage, deleteMessage, forwardMessage and the group-membership
operations complete without throwing, report the structured not-found
rejection, and leave the store unchanged; sendMessage on a nonexistent chat
also completes without throwing and leaves the store unchanged, but — being
a void promise — silently returns without reporting anything to the
caller. -/
theorem C10_not_found (callerUid : String) (now : Nat) (w : World)
    (chatId messageId newText target text receiverId newMsgId : String)
    (enc : String → Option (String × String)) (freshId : String → String)
    (toChatIds : List String) (replyTo : Option String) (expiresAt : Option Nat) :
    (findChat w.chats chatId = none →
        editMessage callerUid now w chatId messageId newText
          = (⟨false, some "Message not found"⟩, w)
        ∧ deleteMessage callerUid now w chatId messageId
          = (⟨false, some "Message not found"⟩, w)
        ∧ forwardMessage callerUid now freshId w chatId messageId toChatIds
          = (⟨false, some "Message not found"⟩, w)
        ∧ addGroupMember callerUid w chatId target = (⟨false, some "Chat not found"⟩, w)
        ∧ removeGroupMember callerUid w chatId target = (⟨false, some "Chat not found"⟩, w)
        ∧ makeAdmin callerUid w chatId target = (⟨false, some "Chat not found"⟩, w)
        ∧ sendMessage enc callerUid now newMsgId w chatId text receiverId replyTo expiresAt
            = w)
      ∧ (∀ c, findChat w.chats chatId = some c → findMsg c messageId = none →
          editMessage callerUid now w chatId messageId newText
            = (⟨false, some "Message not found"⟩, w)
          ∧ deleteMessage callerUid now w chatId messageId
            = (⟨false, some "Message not found"⟩, w)
          ∧ forwardMessage callerUid now freshId w chatId messageId toChatIds
            = (⟨false, some "Message not found"⟩, w)) := by
  constructor
  · intro h
    refine ⟨?_, ?_, ?_, ?_, ?_, ?_, ?_⟩ <;>
      simp [editMessage, deleteMessage, forwardMessage, addGroupMember,
        removeGroupMember, makeAdmin, sendMessage, h]
  · intro c hc hm
    refine ⟨?_, ?_, ?_⟩ <;>
      simp [editMessage, deleteMessage, forwardMessage, hc, hm]

/-- Counterexample to C10 as stated: sendMessage invoked on a nonexistent
chat id resolves as a void promise with the store untouched — a silent
no-op, not a reported not-found rejection — unlike editMessage, whose
result does carry the structured rejection. -/
theorem C10_not_found_counterexample :
    sendMessage (fun _ => none) "a" 0 "m1" wEmpty "nochat" "hi" "b" none none = wEmpty
      ∧ (editMessage "a" 0 wEmpty "nochat" "m" "x").1
          = ⟨false, some "Message not found"⟩ :=
  ⟨rfl, rfl⟩

/-- Witness for C10 on the empty store. -/
theorem C10_not_found_witness :
    editMessage "a" 0 wEmpty "c" "m" "x" = (⟨false, some "Message not found"⟩, wEmpty)
      ∧ removeGroupMember "a" wEmpty "c" "b" = (⟨false, some "Chat not found"⟩, wEmpty) := by
  have h := (C10_not_found "a" 0 wEmpty "c" "m" "x" "b" "hi" "b" "m1"
    (fun _ => none) (fun t => t) [] none none).1 rfl
  exact ⟨h.1, h.2.2.2.2.1⟩

theorem removeGroupMember_inv (callerUid target chatId : String) (w : World) (c : ChatDoc)
    (hc : findChat w.chats chatId = some c) (hinv : GroupInv c) :
    ∃ c', findChat (removeGroupMember callerUid w chatId target).2.chats chatId = some c'
      ∧ GroupInv c'
      ∧ ((removeGroupMember callerUid w chatId target).1.success = true →
          target ∉ c'.participants) := by
  obtain ⟨hsub, hne, hndA, hndP⟩ := hinv
  simp only [removeGroupMember, hc]
  split
  · exact ⟨c, hc, ⟨hsub, hne, hndA, hndP⟩, fun h => by simp at h⟩
  · split
    · exact ⟨c, hc, ⟨hsub, hne, hndA, hndP⟩, fun h => by simp at h⟩
    · split
      · exact ⟨c, hc, ⟨hsub, hne, hndA, hndP⟩, fun h => by simp at h⟩
      · next h3 =>
        have hfound := findChat_updateChat w.chats chatId (fun c0 =>
            { c0 with participants := c0.participants.filter (fun p => p != target),
                      admins := c0.admins.filter (fun a => a != target) }) (fun _ => rfl)
        rw [hc, Option.map_some'] at hfound
        refine ⟨_, hfound, ⟨?_, ?_, hndA.filter _, hndP.filter _⟩, ?_⟩
        · intro a ha
          obtain ⟨haA, hau⟩ := mem_filter_bne.mp ha
          exact mem_filter_bne.mpr ⟨hsub a haA, hau⟩
        · intro hpne
          by_cases htm : target ∈ c.admins
          · have hlen1 : c.admins.length ≠ 1 := by
              intro h1
              exact h3 (by simp [h1, List.elem_iff]; exact htm)
            exact filter_bne_ne_nil hndA htm hlen1
          · rw [filter_bne_eq_self htm]
            apply hne
            intro hpnil
            exact hpne (by simp [hpnil])
        · intro _ hmem
          exact absurd rfl (mem_filter_bne.mp hmem).2

theorem addGroupMember_inv (callerUid target chatId : String) (w : World) (c : ChatDoc)
    (hc : findChat w.chats chatId = some c) (hinv : GroupInv c) :
    ∃ c', findChat (addGroupMember callerUid w chatId target).2.chats chatId = some c'
      ∧ GroupInv c' := by
  obtain ⟨hsub, hne, hndA, hndP⟩ := hinv
  simp only [addGroupMember, hc]
  split
  · exact ⟨c, hc, hsub, hne, hndA, hndP⟩
  · split
    · exact ⟨c, hc, hsub, hne, hndA, hndP⟩
    · split
      · exact ⟨c, hc, hsub, hne, hndA, hndP⟩
      · next h2 h3 =>
        have hcaller : callerUid ∈ c.admins := by
          by_contra hno
          exact h2 (by simp [List.elem_iff, hno])
        have htno : target ∉ c.participants := by
          intro hmem
          exact h3 (List.elem_iff.mpr hmem)
        have hfound := findChat_updateChat w.chats chatId (fun c0 =>
            { c0 with participants := c0.participants ++ [target],
                      unreadCounts := setKey c0.unreadCounts target 0,
                      archivedStatus := setKey c0.archivedStatus target false,
                      mutedStatus := setKey c0.mutedStatus target false,
                      pinnedStatus := setKey c0.pinnedStatus target false }) (fun _ => rfl)
        rw [hc, Option.map_some'] at hfound
        refine ⟨_, hfound, ?_, ?_, hndA, ?_⟩
        · intro a ha
          exact List.mem_append_left _ (hsub a ha)
        · intro _
          exact List.ne_nil_of_mem hcaller
        · simp [List.nodup_append, hndP, htno]

theorem makeAdmin_inv (callerUid target chatId : String) (w : World) (c : ChatDoc)
    (hc : findChat w.chats chatId = some c) (hinv : GroupInv c)
    (htp : target ∈ c.participants) :
    ∃ c', findChat (makeAdmin callerUid w chatId target).2.chats chatId = some c'
      ∧ GroupInv c' := by
  obtain ⟨hsub, hne, hndA, hndP⟩ := hinv
  simp only [makeAdmin, hc]
  split
  · exact ⟨c, hc, hsub, hne, hndA, hndP⟩
  · split
    · exact ⟨c, hc, hsub, hne, hndA, hndP⟩
    · split
      · exact ⟨c, hc, hsub, hne, hndA, hndP⟩
      · next h3 =>
        have htno : target ∉ c.admins := by
          intro hmem
          exact h3 (List.elem_iff.mpr hmem)
        have hfound := findChat_updateChat w.chats chatId (fun c0 =>
            { c0 with admins := c0.admins ++ [target] }) (fun _ => rfl)
        rw [hc, Option.map_some'] at hfound
        refine ⟨_, hfound, ?_, ?_, ?_, hndP⟩
        · intro a ha
          rcases List.mem_append.mp ha with h | h
          · exact hsub a h
          · simpa using (List.mem_singleton.mp h) ▸ htp
        · intro _
          simp
        · simp [List.nodup_append, hndA, htno]

/-- C4 (amended): for every group chat satisfying the admin invariant
(admins a subset of participants, non-empty while participants are, both
duplicate-free), addGroupMember, removeGroupMember and leaveGroup preserve
the invariant, and makeAdmin preserves it provided the promoted user is a
participant — a proviso the source does not check, see the counterexample.
removeGroupMember rejects removing the sole remaining admin with the
last-admin error, and a successful removal deletes the member from
participants. -/
theorem C4_group_admin_invariant (callerUid target chatId : String) (w : World)
    (c : ChatDoc) (hc : findChat w.chats chatId = some c) (hinv : GroupInv c) :
    (∃ c', findChat (removeGroupMember callerUid w chatId target).2.chats chatId = some c'
        ∧ GroupInv c'
        ∧ ((removeGroupMember callerUid w chatId target).1.success = true →
            target ∉ c'.participants))
      ∧ (∃ c', findChat (addGroupMember callerUid w chatId target).2.chats chatId = some c'
          ∧ GroupInv c')
      ∧ (∃ c', findChat (leaveGroup callerUid w chatId).2.chats chatId = some c'
          ∧ GroupInv c'
          ∧ ((leaveGroup callerUid w chatId).1.success = true →
              callerUid ∉ c'.participants))
      ∧ (target ∈ c.participants →
          ∃ c', findChat (makeAdmin callerUid w chatId target).2.chats chatId = some c'
            ∧ GroupInv c')
      ∧ (c.type = "group" → (callerUid ∈ c.admins ∨ callerUid = target) →
          c.admins = [target] →
          removeGroupMember callerUid w chatId target
            = (⟨false, some "Cannot remove the last admin"⟩, w)) := by
  refine ⟨removeGroupMember_inv callerUid target chatId w c hc hinv,
    addGroupMember_inv callerUid target chatId w c hc hinv,
    removeGroupMember_inv callerUid callerUid chatId w c hc hinv,
    fun htp => makeAdmin_inv callerUid target chatId w c hc hinv htp,
    fun htype hcaller hlast => ?_⟩
  have h1 : (c.type != "group") = false := by simp [htype]
  have h2 : (!(c.admins.contains callerUid) && callerUid != target) = false := by
    rcases hcaller with h | h
    · simp [List.elem_iff, h]
    · simp [h]
  have h3 : (c.admins.contains target && c.admins.length == 1) = true := by
    simp [hlast]
  simp only [removeGroupMember, hc, h1, h2, h3]
  simp

/-- Counterexample to C4 as stated: in the group g (participants a and b,
sole admin a) the admin a promotes the outsider c; makeAdmin succeeds and
the resulting admins list is no longer a subset of the participants, so the
membership operations do not all preserve the stated invariant. -/
theorem C4_group_admin_invariant_counterexample :
    (makeAdmin "a" wC4 "g" "c").1.success = true
      ∧ findChat (makeAdmin "a" wC4 "g" "c").2.chats "g"
          = some { chatC4 with admins := ["a", "c"] }
      ∧ "c" ∈ ({ chatC4 with admins := ["a", "c"] } : ChatDoc).admins
      ∧ "c" ∉ ({ chatC4 with admins := ["a", "c"] } : ChatDoc).participants
      ∧ GroupInv chatC4
      ∧ ¬ GroupInv { chatC4 with admins := ["a", "c"] } := by
  decide

/-- Witness for C4: in the group g the admin a removes the member b; the
invariant still holds afterwards and b is gone from the participants. -/
theorem C4_group_admin_invariant_witness :
    ∃ c', findChat (removeGroupMember "a" wC4 "g" "b").2.chats "g" = some c'
      ∧ GroupInv c' ∧ "b" ∉ c'.participants := by
  have h := C4_group_admin_invariant "a" "b" "g" wC4 chatC4 rfl (by decide)
  obtain ⟨c', h1, h2, h3⟩ := h.1
  exact ⟨c', h1, h2, h3 (by decide)⟩

theorem sendMessage_found (enc : String → Option (String × String)) (callerUid : String)
    (now : Nat) (newMsgId : String) (w : World) (chatId text receiverId : String)
    (replyTo : Option String) (expiresAt : Option Nat) (c : ChatDoc)
    (hc : findChat w.chats chatId = some c) :
    findChat (sendMessage enc callerUid now newMsgId w chatId text receiverId
        replyTo expiresAt).chats chatId
      = some (sendChatUpdate (encryptionOutcome enc callerUid w c receiverId).isSome
          callerUid now text
          (sentMessageDoc (encryptionOutcome enc callerUid w c receiverId)
            callerUid now newMsgId text receiverId replyTo expiresAt)
          (sendUnreadUpdate callerUid receiverId c) c) := by
  simp only [sendMessage, hc]
  rw [findChat_updateChat w.chats chatId
    (sendChatUpdate (encryptionOutcome enc callerUid w c receiverId).isSome
      callerUid now text
      (sentMessageDoc (encryptionOutcome enc callerUid w c receiverId)
        callerUid now newMsgId text receiverId replyTo expiresAt)
      (sendUnreadUpdate callerUid receiverId c)) (fun _ => rfl), hc, Option.map_some']

theorem encryptionOutcome_spec (enc : String → Option (String × String))
    (callerUid : String) (w : World) (c : ChatDoc) (receiverId : String)
    (h : (encryptionOutcome enc callerUid w c receiverId).isSome = true) :
    specEncryptsWhen w c callerUid = true := by
  unfold encryptionOutcome at h
  split at h
  case isFalse => simp at h
  case isTrue hguard =>
    have htype : (c.type == "direct") = true := by
      have := hguard
      simp only [Bool.and_eq_true] at this
      exact this.1
    rcases hop : otherParticipant c callerUid with _ | other
    · simp only [hop] at h; simp at h
    · simp only [hop] at h
      rcases hopk : userPublicKey w other with _ | opk
      · simp only [hopk] at h; simp at h
      · simp only [hopk] at h
        rcases hmpk : userPublicKey w callerUid with _ | mpk
        · simp only [hmpk] at h; simp at h
        · simp only [hmpk] at h
          rcases hpriv : lookupKey w.localStorage ("e2ee_priv_" ++ callerUid) with _ | pv
          · simp only [hpriv] at h; simp at h
          · simp [specEncryptsWhen, htype, hop, hopk, hmpk, hpriv]

theorem specEncryptsWhen_false_outcome (enc : String → Option (String × String))
    (callerUid : String) (w : World) (c : ChatDoc) (receiverId : String)
    (h : specEncryptsWhen w c callerUid = false) :
    encryptionOutcome enc callerUid w c receiverId = none := by
  cases heo : encryptionOutcome enc callerUid w c receiverId with
  | none => rfl
  | some v =>
    have hs : (encryptionOutcome enc callerUid w c receiverId).isSome = true := by
      simp [heo]
    rw [encryptionOutcome_spec enc callerUid w c receiverId hs] at h
    cases h

/-- C3: the message body sendMessage stores is encrypted only when the chat
is direct, both participants have a published public key and the sender has
local private key material (necessity of the policy); whenever any of those
conditions fails the message is stored in plaintext with isEncrypted set to
false — a silent downgrade, not an error. -/
theorem C3_encryption_policy (enc : String → Option (String × String))
    (callerUid : String) (now : Nat) (newMsgId : String) (w : World)
    (chatId text receiverId : String) (replyTo : Option String) (expiresAt : Option Nat)
    (c : ChatDoc) (hc : findChat w.chats chatId = some c) :
    ∃ c', findChat (sendMessage enc callerUid now newMsgId w chatId text receiverId
          replyTo expiresAt).chats chatId = some c'
      ∧ c'.messages = c.messages ++
          [sentMessageDoc (encryptionOutcome enc callerUid w c receiverId)
            callerUid now newMsgId text receiverId replyTo expiresAt]
      ∧ ((sentMessageDoc (encryptionOutcome enc callerUid w c receiverId)
            callerUid now newMsgId text receiverId replyTo expiresAt).isEncrypted = true →
          specEncryptsWhen w c callerUid = true)
      ∧ (specEncryptsWhen w c callerUid = false →
          (sentMessageDoc (encryptionOutcome enc callerUid w c receiverId)
              callerUid now newMsgId text receiverId replyTo expiresAt).isEncrypted = false
            ∧ (sentMessageDoc (encryptionOutcome enc callerUid w c receiverId)
                callerUid now newMsgId text receiverId replyTo expiresAt).text = text) := by
  refine ⟨_, sendMessage_found enc callerUid now newMsgId w chatId text receiverId
    replyTo expiresAt c hc, rfl, ?_, ?_⟩
  · intro hm
    exact encryptionOutcome_spec enc callerUid w c receiverId hm
  · intro hspec
    rw [show (sentMessageDoc (encryptionOutcome enc callerUid w c receiverId)
        callerUid now newMsgId text receiverId replyTo expiresAt).isEncrypted
        = (encryptionOutcome enc callerUid w c receiverId).isSome from rfl]
    rw [specEncryptsWhen_false_outcome enc callerUid w c receiverId hspec]
    exact ⟨rfl, rfl⟩

/-- Witness for C3: in the keyless world the stored message is the
plaintext with isEncrypted false; after both users publish keys and the
sender holds private material, the stored body is the ciphertext CT with
isEncrypted true. -/
theorem C3_encryption_policy_witness :
    (∃ c', findChat (sendMessage (fun _ => none) "a" 7 "m1" wC3 "c3" "hello" "b"
          none none).chats "c3" = some c'
        ∧ c'.messages = chatC3.messages ++
            [sentMessageDoc none "a" 7 "m1" "hello" "b" none none]
        ∧ (sentMessageDoc none "a" 7 "m1" "hello" "b" none none).isEncrypted = false
        ∧ (sentMessageDoc none "a" 7 "m1" "hello" "b" none none).text = "hello")
      ∧ (∃ c', findChat (sendMessage (fun _ => some ("CT", "IV")) "a" 7 "m1" wC3k "c3"
            "hello" "b" none none).chats "c3" = some c'
          ∧ c'.messages = chatC3.messages ++
              [sentMessageDoc (some ("CT", "IV", "pkA")) "a" 7 "m1" "hello" "b" none none]
          ∧ (sentMessageDoc (some ("CT", "IV", "pkA")) "a" 7 "m1" "hello" "b"
              none none).isEncrypted = true
          ∧ (sentMessageDoc (some ("CT", "IV", "pkA")) "a" 7 "m1" "hello" "b"
              none none).text = "CT") := by
  constructor
  · have h := C3_encryption_policy (fun _ => none) "a" 7 "m1" wC3 "c3" "hello" "b"
      none none chatC3 rfl
    have heo : encryptionOutcome (fun _ => none) "a" wC3 chatC3 "b" = none := rfl
    rw [heo] at h
    obtain ⟨c', h1, h2, _, _⟩ := h
    exact ⟨c', h1, h2, rfl, rfl⟩
  · have h := C3_encryption_policy (fun _ => some ("CT", "IV")) "a" 7 "m1" wC3k "c3"
      "hello" "b" none none chatC3 rfl
    have heo : encryptionOutcome (fun _ => some ("CT", "IV")) "a" wC3k chatC3 "b"
        = some ("CT", "IV", "pkA") := rfl
    rw [heo] at h
    obtain ⟨c', h1, h2, _, _⟩ := h
    exact ⟨c', h1, h2, rfl, rfl⟩

theorem sendAll_unread (enc : String → Option (String × String)) (callerUid : String)
    (now : Nat) (chatId receiverId : String) (items : List (String × String))
    (w : World) (c : ChatDoc)
    (hc : findChat w.chats chatId = some c) (hg : (receiverId == "group") = false) :
    ∃ c', findChat (sendAll enc callerUid now chatId receiverId items w).chats chatId
        = some c'
      ∧ getCount c'.unreadCounts receiverId
          = getCount c.unreadCounts receiverId + items.length
      ∧ ∀ u, u ≠ receiverId → getCount c'.unreadCounts u = getCount c.unreadCounts u := by
  induction items generalizing w c with
  | nil => exact ⟨c, hc, by simp, fun _ _ => rfl⟩
  | cons it rest ih =>
    have hstep := sendMessage_found enc callerUid now it.1 w chatId it.2 receiverId
      none none c hc
    obtain ⟨c', h1, h2, h3⟩ := ih
      (sendMessage enc callerUid now it.1 w chatId it.2 receiverId none none) _ hstep
    have hcu : (sendChatUpdate (encryptionOutcome enc callerUid w c receiverId).isSome
        callerUid now it.2
        (sentMessageDoc (encryptionOutcome enc callerUid w c receiverId)
          callerUid now it.1 it.2 receiverId none none)
        (sendUnreadUpdate callerUid receiverId c) c).unreadCounts
        = setKey c.unreadCounts receiverId (getCount c.unreadCounts receiverId + 1) := by
      simp [sendChatUpdate, sendUnreadUpdate, hg]
    rw [hcu] at h2 h3
    refine ⟨c', by simpa [sendAll] using h1, ?_, ?_⟩
    · rw [h2, getCount_setKey_self, List.length_cons]
      omega
    · intro u hu
      rw [h3 u hu, getCount_setKey_ne _ _ _ _ hu]

/-- C5: in a direct chat, N sendMessage calls by A with receiver B increase
B's unreadCounts entry by exactly N and leave A's (and every other user's)
entry unchanged; a subsequent markMessagesAsRead by B resets exactly B's
entry to 0 and leaves A's untouched. -/
theorem C5_unread_accounting (enc : String → Option (String × String)) (A B : String)
    (now : Nat) (chatId : String) (items : List (String × String)) (w : World)
    (c : ChatDoc) (hc : findChat w.chats chatId = some c) (_hdir : c.type = "direct")
    (hAB : A ≠ B) (hBg : B ≠ "group") :
    ∃ c', findChat (sendAll enc A now chatId B items w).chats chatId = some c'
      ∧ getCount c'.unreadCounts B = getCount c.unreadCounts B + items.length
      ∧ getCount c'.unreadCounts A = getCount c.unreadCounts A
      ∧ ∃ c2, findChat (markMessagesAsRead B (sendAll enc A now chatId B items w)
            chatId).chats chatId = some c2
          ∧ getCount c2.unreadCounts B = 0
          ∧ getCount c2.unreadCounts A = getCount c.unreadCounts A := by
  have hg : (B == "group") = false := by simp [hBg]
  obtain ⟨c', h1, h2, h3⟩ := sendAll_unread enc A now chatId B items w c hc hg
  have hA := h3 A hAB
  have hmark := findChat_updateChat (sendAll enc A now chatId B items w).chats chatId
    (fun c0 => { c0 with unreadCounts := setKey c0.unreadCounts B 0 }) (fun _ => rfl)
  rw [h1, Option.map_some'] at hmark
  refine ⟨c', h1, h2, hA, _, hmark, ?_, ?_⟩
  · show getCount (setKey c'.unreadCounts B 0) B = 0
    rw [getCount_setKey_self]
  · show getCount (setKey c'.unreadCounts B 0) A = getCount c.unreadCounts A
    rw [getCount_setKey_ne _ _ _ _ hAB, hA]

/-- Witness for C5: a sends two messages to b in the direct chat d; b's
counter goes from 0 to 2 while a's stays 0, and b's markMessagesAsRead
resets b's counter to 0 leaving a's untouched. -/
theorem C5_unread_accounting_witness :
    ∃ c', findChat (sendAll (fun _ => none) "a" 7 "d" "b" [("m1", "hi"), ("m2", "yo")]
        wC5).chats "d" = some c'
      ∧ getCount c'.unreadCounts "b" = 2
      ∧ getCount c'.unreadCounts "a" = 0
      ∧ ∃ c2, findChat (markMessagesAsRead "b" (sendAll (fun _ => none) "a" 7 "d" "b"
            [("m1", "hi"), ("m2", "yo")] wC5) "d").chats "d" = some c2
          ∧ getCount c2.unreadCounts "b" = 0
          ∧ getCount c2.unreadCounts "a" = 0 := by
  have h := C5_unread_accounting (fun _ => none) "a" "b" 7 "d"
    [("m1", "hi"), ("m2", "yo")] wC5 chatC5 rfl rfl (by decide) (by decide)
  obtain ⟨c', h1, h2, h3, c2, h4, h5, h6⟩ := h
  exact ⟨c', h1, h2, h3, c2, h4, h5, h6⟩

/-- C7 (amended): a message whose expiresAt lies in the past at the
client's evaluation time is excluded from the live-subscription message
view (the ChatScreen active-message filter); the search result sets do NOT
apply this exclusion even though the message is still in storage — see the
counterexample. -/
theorem C7_self_destruct_exclusion (now e : Nat) (msgs : List MessageDoc)
    (m : MessageDoc) (hm : m.expiresAt = some e) (hpast : e < now) :
    m ∉ activeMessages now msgs := by
  intro hmem
  obtain ⟨-, hpred⟩ := List.mem_filter.mp hmem
  simp only [hm] at hpred
  have : e > now := of_decide_eq_true hpred
  omega

/-- Counterexample to C7 as stated: the message m7 expired at t = 5; the
ChatScreen view at t = 10 excludes it, but both searchMessagesInChat and
searchAllMessages still return it even though it is not physically removed
from storage. -/
theorem C7_self_destruct_exclusion_counterexample :
    msgC7.expiresAt = some 5
      ∧ activeMessages 10 chatC7.messages = []
      ∧ searchMessagesInChat (fun _ _ _ => none) false chatC7 "hello" = [msgC7]
      ∧ searchAllMessages "a" wC7 "hello" = [("c7", [msgC7])] := by
  decide

/-- Witness for C7: the expired message m7 is filtered out of the live view
at t = 10. -/
theorem C7_self_destruct_exclusion_witness :
    msgC7 ∉ activeMessages 10 [msgC7] :=
  C7_self_destruct_exclusion 10 5 [msgC7] msgC7 rfl (by omega)

/-- C8 (amended): createChat returns the id of the FIRST existing chat whose
participants include both users — regardless of the chat's type — and
creates nothing; only when no chat at all contains both does it create a
fresh direct chat with exactly the two participants and zeroed unread
counters. In particular, a second call after a direct chat between the
pair exists (and no other shared chat precedes it) returns that chat's id
and creates no new document. -/
theorem C8_createChat_idempotent (callerUid newChatId otherUserId : String) (w : World) :
    (∀ c, ((w.chats.filter (fun c => c.participants.contains callerUid)).find?
          (fun c => c.participants.contains otherUserId)) = some c →
        createChat callerUid newChatId w otherUserId = (c.chatId, w)
          ∧ c ∈ w.chats ∧ c.participants.contains callerUid = true
          ∧ c.participants.contains otherUserId = true)
      ∧ (((w.chats.filter (fun c => c.participants.contains callerUid)).find?
          (fun c => c.participants.contains otherUserId)) = none →
        ∃ cNew, createChat callerUid newChatId w otherUserId
              = (newChatId, { w with chats := w.chats ++ [cNew] })
          ∧ cNew.chatId = newChatId ∧ cNew.type = "direct"
          ∧ cNew.participants = [callerUid, otherUserId]
          ∧ getCount cNew.unreadCounts callerUid = 0
          ∧ getCount cNew.unreadCounts otherUserId = 0
          ∧ cNew.messages = []) := by
  constructor
  · intro c hfind
    have hmem := List.mem_of_find?_eq_some hfind
    have hother := List.find?_some hfind
    obtain ⟨hmemw, hcaller⟩ := List.mem_filter.mp hmem
    refine ⟨?_, hmemw, hcaller, hother⟩
    simp only [createChat, hfind]
  · intro hnone
    refine ⟨{ chatId := newChatId, type := "direct",
              participants := [callerUid, otherUserId], admins := [], name := "",
              description := "", lastMessage := "", lastMessageAt := none,
              lastMessageSender := "", unreadCounts := [(callerUid, 0), (otherUserId, 0)],
              archivedStatus := [], mutedStatus := [], pinnedStatus := [],
              deletedBy := [], messages := [] }, ?_, rfl, rfl, rfl, ?_, ?_, rfl⟩
    · simp only [createChat, hnone]
    · simp [getCount, lookupKey]
    · by_cases hco : otherUserId = callerUid
      · simp [getCount, lookupKey, hco]
      · simp [getCount, lookupKey, hco]

/-- Counterexample to C8 as stated: in wC8 the direct chat d8 between a and
b exists, but the group chat g8 (which also contains both) is found first,
so createChat returns the group chat's id g8 instead of the existing direct
chat's id d8. -/
theorem C8_createChat_idempotent_counterexample :
    chatC8d ∈ wC8.chats ∧ chatC8d.type = "direct"
      ∧ chatC8d.participants = ["a", "b"]
      ∧ chatC8g.type = "group"
      ∧ createChat "a" "new" wC8 "b" = ("g8", wC8)
      ∧ "g8" ≠ "d8" := by
  decide

/-- Witness for C8: a first createChat on the empty store creates the direct
chat c1 between a and b; a second call returns c1 and leaves the store
unchanged. -/
theorem C8_createChat_idempotent_witness :
    createChat "a" "c1" wEmpty "b" = ("c1", wC8w)
      ∧ createChat "a" "c2" wC8w "b" = ("c1", wC8w)
      ∧ chatC8new ∈ wC8w.chats ∧ chatC8new.type = "direct" := by
  have h := (C8_createChat_idempotent "a" "c2" "b" wC8w).1 chatC8new (by decide)
  exact ⟨by decide, h.1, h.2.1, rfl⟩

/-- C9 (amended): searchMessagesInChat examines only the 500 most recent
messages, skips tombstoned messages, decrypts opportunistically when a
local private key is available — never matching a message whose decryption
fails — and returns exactly the matching messages with the decrypted text
substituted. searchAllMessages examines the 100 most recent messages of
each chat the caller participates in and skips tombstoned messages, but
matches the RAW stored text case-insensitively without attempting any
decryption, so for encrypted messages it is the ciphertext that is
searched. -/
theorem C9_search_behavior (dec : String → String → String → Option String)
    (pk : Bool) (c : ChatDoc) (q : String) (uid : String) (w : World)
    (hq : blankTerm q = false)
    (hids : (c.messages.map MessageDoc.msgId).Nodup) :
    (∀ r ∈ searchMessagesInChat dec pk c q,
        ∃ m0 ∈ descWindow 500 c.messages, m0.deletedAt = none
          ∧ resolveSearchText dec pk m0 = some r.text
          ∧ containsIC r.text q = true ∧ r = { m0 with text := r.text })
      ∧ (∀ m0 ∈ descWindow 500 c.messages, m0.deletedAt = none →
          ∀ t, resolveSearchText dec pk m0 = some t → containsIC t q = true →
            { m0 with text := t } ∈ searchMessagesInChat dec pk c q)
      ∧ (∀ m0 ∈ descWindow 500 c.messages, resolveSearchText dec pk m0 = none →
          ∀ r ∈ searchMessagesInChat dec pk c q, r.msgId ≠ m0.msgId)
      ∧ (∀ p ∈ searchAllMessages uid w q, ∀ r ∈ p.2,
          ∃ c0 ∈ w.chats, c0.chatId = p.1 ∧ c0.participants.contains uid = true
            ∧ r ∈ descWindow 100 c0.messages ∧ r.deletedAt = none
            ∧ containsIC r.text q = true) := by
  have hqp : ¬ (blankTerm q = true) := by simp [hq]
  have sound : ∀ r ∈ searchMessagesInChat dec pk c q,
      ∃ m0 ∈ descWindow 500 c.messages, m0.deletedAt = none
        ∧ resolveSearchText dec pk m0 = some r.text
        ∧ containsIC r.text q = true ∧ r = { m0 with text := r.text } := by
    intro r hr
    rw [searchMessagesInChat, if_neg hqp, List.mem_filterMap] at hr
    obtain ⟨m0, hm0, hf⟩ := hr
    by_cases hdel : m0.deletedAt.isSome
    · rw [if_pos hdel] at hf; cases hf
    · rw [if_neg hdel] at hf
      rcases hres : resolveSearchText dec pk m0 with _ | t
      · simp only [hres] at hf
        exact Option.noConfusion hf
      · simp only [hres] at hf
        by_cases hct : containsIC t q = true
        · rw [if_pos hct] at hf
          obtain rfl := (Option.some.inj hf).symm
          exact ⟨m0, hm0, Option.not_isSome_iff_eq_none.mp hdel, hres, hct, rfl⟩
        · rw [if_neg hct] at hf; cases hf
  refine ⟨sound, ?_, ?_, ?_⟩
  · intro m0 hm0 hdel t hres hct
    rw [searchMessagesInChat, if_neg hqp, List.mem_filterMap]
    exact ⟨m0, hm0, by simp [hdel, hres, hct]⟩
  · intro m0 hm0 hresn r hr heq
    obtain ⟨m1, hm1, -, hres1, -, hr1⟩ := sound r hr
    have hmm0 : m0 ∈ c.messages :=
      List.mem_reverse.mp (List.mem_of_mem_take hm0)
    have hmm1 : m1 ∈ c.messages :=
      List.mem_reverse.mp (List.mem_of_mem_take hm1)
    have hid01 : m1.msgId = m0.msgId := by
      rw [← heq, hr1]
    have : m1 = m0 := List.inj_on_of_nodup_map hids hmm1 hmm0 hid01
    rw [this, hresn] at hres1
    cases hres1
  · intro p hp r hr
    rw [searchAllMessages, if_neg hqp, List.mem_filterMap] at hp
    obtain ⟨c0, hc0, hf⟩ := hp
    obtain ⟨hc0w, hc0uid⟩ := List.mem_filter.mp hc0
    by_cases hemp : ((descWindow 100 c0.messages).filter (fun m =>
        !m.deletedAt.isSome && containsIC m.text q)).isEmpty
    · rw [if_pos hemp] at hf; cases hf
    · rw [if_neg hemp] at hf
      obtain rfl := (Option.some.inj hf).symm
      obtain ⟨hrw, hrpred⟩ := List.mem_filter.mp hr
      obtain ⟨hrdel, hrct⟩ := Bool.and_eq_true_iff.mp hrpred
      exact ⟨c0, hc0w, rfl, hc0uid, hrw,
        Option.not_isSome_iff_eq_none.mp (by simpa using hrdel), hrct⟩

/-- Counterexample to C9 as stated: the encrypted message m9 decrypts to a
plaintext that does not contain the term, so searchMessagesInChat (with a
key available) correctly returns nothing — but searchAllMessages, which
never attempts decryption, matches the stored ciphertext and returns the
message. -/
theorem C9_search_behavior_counterexample :
    msgC9.isEncrypted = true
      ∧ searchMessagesInChat (fun _ _ _ => some "unrelated") true chatC9 "hello" = []
      ∧ searchAllMessages "u" wC9 "hello" = [("c9", [msgC9])] := by
  decide

/-- Witness for C9: in chat c9w the encrypted message mp decrypts under the
oracle to a plaintext containing the term, and the in-chat search returns it
with the decrypted text substituted. -/
theorem C9_search_behavior_witness :
    ({ msgC9p with text := "Hello there" } : MessageDoc)
      ∈ searchMessagesInChat decC9 true chatC9w "Hello" := by
  have h := C9_search_behavior decC9 true chatC9w "Hello" "u" wC9 (by decide) (by decide)
  exact h.2.1 msgC9p (by decide) (by decide) "Hello there" (by decide) (by decide)

end Czat
